import Mathlib

set_option maxRecDepth 100000

/-!
Verification of the yopflix-downloader-bun repository (Bun + TypeScript).

This file shallowly embeds the core logic of the repository:
 - the regex-based HTML/JSON scraping of the two providers
   (src/providers/yopflix.ts and src/providers/frenchstream.ts),
 - the download orchestration (src/utils/download.ts and
   src/commands/download.ts),
 - the text-extraction utilities (parseSeasonEpisode, isUqloadEmbed,
   buildOutputPath).

JavaScript strings are modeled as Lean `String`/`List Char`; JavaScript
numbers appearing here are all non-negative integers produced by parsing
digit runs, and are modeled as `Nat` (comparator arithmetic uses `Int`).
The source scrapes with JavaScript `RegExp`; the regexes are embedded as
data for a small fuel-bounded backtracking matcher (`RE`, `matchRE`) that
implements the leftmost-match, greedy/lazy backtracking semantics of the
JavaScript engine for the constructs these patterns use.  Case-insensitive
(`/i`) matching is modeled with ASCII case folding (`Char.toLower`), which
agrees with JavaScript on every pattern occurring in the source.
Effectful boundaries (fetch, the spawned yt-dlp process, the file system,
sleeps) are modeled by passing their observable results in as explicit
parameters (oracles), so that orchestration logic stays pure.
-/

namespace Yop

/-- The set of characters matched by JavaScript `\s` (and trimmed by
`String.prototype.trim`), restricted to the code points that can occur in
this repository's data (ASCII whitespace plus NBSP and BOM). -/
def jsWs (c : Char) : Bool :=
  c = ' ' || c = '\t' || c = '\n' || c = '\r' || c = '\x0b' || c = '\x0c' ||
  c = ' ' || c = '﻿'

/-- JavaScript `String.prototype.trim`: strip leading and trailing
whitespace/line terminators. -/
def jsTrim (s : String) : String :=
  String.mk (((s.data.dropWhile jsWs).reverse.dropWhile jsWs).reverse)

/-- Character-list version of substring search: does `hay` contain `needle`
as a contiguous substring?  Models `String.prototype.includes`. -/
def containsL (needle : List Char) : List Char → Bool
  | [] => needle.isPrefixOf []
  | c :: cs => needle.isPrefixOf (c :: cs) || containsL needle cs

/-- JavaScript `String.prototype.includes`. -/
def jsIncludes (s needle : String) : Bool :=
  containsL needle.data s.data

/-- JavaScript `String.prototype.toLowerCase` (ASCII case folding, which is
all that the source's data requires). -/
def lowerStr (s : String) : String :=
  String.mk (s.data.map Char.toLower)

/-- JavaScript `String.prototype.startsWith`. -/
def jsStartsWith (s pre : String) : Bool :=
  pre.data.isPrefixOf s.data

/-- Decimal value of a digit string, as produced by JavaScript
`Number(match)` on a `\d+` capture. -/
def parseDigits (s : String) : Nat :=
  s.data.foldl (fun n c => n * 10 + (c.toNat - '0'.toNat)) 0

/-- JavaScript `String(n).padStart(2, "0")` applied to an already rendered
numeral string. -/
def padStart2 (s : String) : String :=
  if s.length ≥ 2 then s else String.mk (List.replicate (2 - s.length) '0') ++ s

/-! ### A small backtracking regex engine

The source matches JavaScript `RegExp`s against strings.  `RE` is the
abstract syntax of the regex fragment those patterns use; `matchRE` is a
continuation-passing backtracking matcher with the JavaScript semantics:
`star _ false` is greedy, `star _ true` is lazy (`*?`), alternation is
ordered, and the overall search (`findAux`) returns the leftmost match.
The matcher is fuel-bounded; every pattern in the source consumes at least
one character per star iteration, so a fuel of the input length plus the
pattern size is always sufficient. -/

inductive RE where
  /-- Matches the empty string. -/
  | eps
  /-- A single-character class (also used for case-folded literals). -/
  | cls (p : Char → Bool)
  /-- Concatenation. -/
  | seq (a b : RE)
  /-- Ordered alternation (the left branch is preferred). -/
  | alt (a b : RE)
  /-- Kleene star; `lazy = true` is the reluctant `*?` form. -/
  | star (a : RE) (lazy : Bool)
  /-- A capturing group with index `i`. -/
  | group (i : Nat) (a : RE)
  /-- The `$` end-of-input anchor (no `m` flag anywhere in the source). -/
  | endStr

/-- Captured groups: group index paired with the captured text.  Later
captures are prepended, and lookup takes the first hit. -/
abbrev Groups := List (Nat × String)

/-- Record a capture for group `i`. -/
def setG (gs : Groups) (i : Nat) (v : String) : Groups := (i, v) :: gs

/-- Look up the capture of group `i` (JavaScript `match[i]`). -/
def getG (gs : Groups) (i : Nat) : Option String :=
  (gs.find? (fun p => p.1 = i)).map (fun p => p.2)

/-- The text consumed between suffix states `s` and `s'` of the subject. -/
def consumed (s s' : List Char) : String :=
  String.mk (s.take (s.length - s'.length))

/-- The backtracking matcher.  `matchRE fuel re s gs k` tries to match `re`
at the start of `s` with groups `gs`, calling the continuation `k` on the
remaining suffix; `none` signals failure, which drives backtracking via
`Option.orElse`. -/
def matchRE : Nat → RE → List Char → Groups →
    (List Char → Groups → Option (Groups × List Char)) → Option (Groups × List Char)
  | 0, _, _, _, _ => none
  | fuel + 1, re, s, gs, k =>
    match re with
    | .eps => k s gs
    | .cls p =>
      match s with
      | [] => none
      | c :: cs => if p c then k cs gs else none
    | .seq a b => matchRE fuel a s gs (fun s' gs' => matchRE fuel b s' gs' k)
    | .alt a b =>
      (matchRE fuel a s gs k).orElse (fun _ => matchRE fuel b s gs k)
    | .star a lazy =>
      if lazy then
        (k s gs).orElse (fun _ =>
          matchRE fuel a s gs (fun s' gs' => matchRE fuel (.star a lazy) s' gs' k))
      else
        (matchRE fuel a s gs (fun s' gs' =>
          matchRE fuel (.star a lazy) s' gs' k)).orElse (fun _ => k s gs)
    | .group i a =>
      matchRE fuel a s gs (fun s' gs' => k s' (setG gs' i (consumed s s')))
    | .endStr =>
      match s with
      | [] => k s gs
      | _ :: _ => none

/-- Sufficient fuel for matching any of the source's patterns against `s`
(every star body consumes at least one character). -/
def fuelFor (s : List Char) : Nat := 4 * s.length + 64

/-- Try to match `re` anchored at the start of `s`; on success return the
groups and the unconsumed suffix. -/
def tryAt (re : RE) (s : List Char) : Option (Groups × List Char) :=
  matchRE (fuelFor s) re s [] (fun rest gs => some (gs, rest))

/-- Leftmost-match search: returns (text before the match, groups, text
after the match), or `none` when `re` matches nowhere in `s`. -/
def findAux (re : RE) : List Char → Option (List Char × Groups × List Char)
  | [] => (tryAt re []).map (fun p => ([], p.1, p.2))
  | c :: cs =>
    match tryAt re (c :: cs) with
    | some (gs, rest) => some ([], gs, rest)
    | none => (findAux re cs).map (fun r => (c :: r.1, r.2.1, r.2.2))

/-- JavaScript `str.match(re)` (no `g` flag): leftmost match's groups. -/
def jsMatch (re : RE) (s : String) : Option Groups :=
  (findAux re s.data).map (fun r => r.2.1)

/-- JavaScript `str.replace(re, "")` (no `g` flag): delete the leftmost
match. -/
def jsReplaceEmpty (re : RE) (s : String) : String :=
  match findAux re s.data with
  | none => s
  | some (pre, _, rest) => String.mk (pre ++ rest)

/-- JavaScript `re.test(s)` for a `^...$`-anchored pattern: match at the
start of the string (the patterns below carry the `$` via `RE.endStr`). -/
def testAnchored (re : RE) (s : String) : Bool :=
  (tryAt re s.data).isSome

/-- All matches of a global (`g` flag) regex, in order, as the JavaScript
`while ((m = re.exec(s)) !== null)` loop produces them.  The outer `n` is a
fuel bounded by the subject length; matches of the source's patterns are
never empty, and the guard stops if no progress is made. -/
def findAll (re : RE) : Nat → List Char → List Groups
  | 0, _ => []
  | n + 1, s =>
    match findAux re s with
    | none => []
    | some (_, gs, rest) =>
      if s.length ≤ rest.length then [gs] else gs :: findAll re n rest

/-- All matches of a global regex in `s`. -/
def jsMatchAll (re : RE) (s : String) : List Groups :=
  findAll re (s.length + 1) s.data

/-! Smart constructors mirroring the concrete regex syntax. -/

/-- A case-sensitive literal. -/
def rlit (s : String) : RE :=
  s.data.foldr (fun c r => RE.seq (.cls (fun x => x = c)) r) .eps

/-- A case-insensitive literal (for patterns carrying the `/i` flag). -/
def rlitCI (s : String) : RE :=
  s.data.foldr (fun c r => RE.seq (.cls (fun x => x.toLower = c.toLower)) r) .eps

/-- Concatenation of a pattern list. -/
def rseq (l : List RE) : RE := l.foldr .seq .eps

/-- Greedy `+` (one or more). -/
def rplus (a : RE) : RE := .seq a (.star a false)

/-- Greedy `?` (zero or one, preferring one). -/
def ropt (a : RE) : RE := .alt a .eps

/-- The class `\d`. -/
def dC : RE := .cls Char.isDigit

/-- The class `\s`. -/
def wsC : RE := .cls jsWs

/-- The class `[^>]`. -/
def notGt : RE := .cls (fun c => c ≠ '>')

/-- The class `[\s\S]` (any character). -/
def anyC : RE := .cls (fun _ => true)

end Yop

namespace Yop

/-! ### Entity model (src/types.ts) -/

/-- The `"movie" | "series"` union. -/
inductive MediaType where
  | movie
  | series
deriving DecidableEq

/-- The `string | number` identifier union used by `Title` and `Episode`. -/
inductive EntityId where
  | str (s : String)
  | num (n : Nat)
deriving DecidableEq

/-- `interface Episode` of src/types.ts. -/
structure Episode where
  id : EntityId
  name : String
  season : Option Nat
  episode : Option Nat
  url : String
  language : Option String
deriving DecidableEq

/-- `interface Title` of src/types.ts. -/
structure Title where
  id : EntityId
  name : String
  year : Option Nat
  type : MediaType
  posterUrl : Option String
deriving DecidableEq

/-- `interface TitleDetails` of src/types.ts (the `Title` part inlined). -/
structure TitleDetails where
  id : EntityId
  name : String
  type : MediaType
  episodes : List Episode
  seasonCount : Option Nat
  episodeCount : Option Nat
deriving DecidableEq

/-! ### URL parsing

The source validates player URLs with the WHATWG `new URL(u)` constructor
and then inspects `hostname` and `pathname`.  `parseUrl` models that
constructor on the absolute-URL shapes this repository constructs and
validates (`scheme://host[:port]/path…`): the hostname is lowercased, a
port is stripped, and a parse failure (the constructor throwing) is
`none`.  Userinfo, IPv6 hosts and relative URLs do not occur in the
repository's data. -/

/-- Hostname and pathname of a parsed URL. -/
structure UrlParts where
  hostname : String
  pathname : String
deriving DecidableEq

/-- Split a character list at the first occurrence of `needle`, dropping
the needle itself. -/
def splitFirstL (needle : List Char) : List Char → Option (List Char × List Char)
  | [] => if needle.isEmpty then some ([], []) else none
  | c :: cs =>
    if needle.isPrefixOf (c :: cs) then some ([], (c :: cs).drop needle.length)
    else (splitFirstL needle cs).map (fun p => (c :: p.1, p.2))

/-- Model of the WHATWG `new URL` constructor (see the section comment). -/
def parseUrl (s : String) : Option UrlParts :=
  match splitFirstL "://".data s.data with
  | none => none
  | some (scheme, rest) =>
    if !(match scheme with | c :: _ => c.isAlpha | [] => false) then none
    else if !(scheme.all fun c => c.isAlpha || c.isDigit || c = '+' || c = '-' || c = '.') then none
    else
      let authority := rest.takeWhile (fun c => c != '/' && c != '?' && c != '#')
      let afterAuth := rest.drop authority.length
      let host := authority.takeWhile (fun c => c != ':')
      if host.isEmpty then none
      else
        let path := afterAuth.takeWhile (fun c => c != '?' && c != '#')
        some ⟨String.mk (host.map Char.toLower),
              if path.isEmpty then "/" else String.mk path⟩

/-! ### Text-extraction utilities (src/utils/download.ts) -/

/-- The season/episode token regex of `parseSeasonEpisode`: a
case-insensitive `S`, one to two digits (captured), optional whitespace,
`E`, one to three digits (captured); the bounded repetitions are unrolled
into a digit followed by greedy optional digits. -/
def seRE : RE :=
  rseq [rlitCI "S", .group 1 (rseq [dC, ropt dC]), .star wsC false,
        rlitCI "E", .group 2 (rseq [dC, ropt dC, ropt dC])]

/-- `parseSeasonEpisode` of src/utils/download.ts: parse names like
`"S01 E01"` into (season, episode); no match (or a non-finite parse, which
cannot happen for digit captures) yields the empty record, modeled as
`(none, none)`. -/
def parseSeasonEpisode (name : String) : Option Nat × Option Nat :=
  match jsMatch seRE name with
  | some gs =>
    match getG gs 1, getG gs 2 with
    | some s, some e => (some (parseDigits s), some (parseDigits e))
    | _, _ => (none, none)
  | none => (none, none)

/-- `isUqloadEmbed` of src/utils/download.ts: the accepted playable-URL
pattern of the REST-API path. -/
def isUqloadEmbed (url : String) : Bool :=
  match parseUrl url with
  | none => false
  | some u =>
    (jsIncludes u.hostname "uqload." || u.hostname = "uqload.cx" ||
     u.hostname = "uqload.net") && jsStartsWith u.pathname "/embed-"

/-- Truthiness of an optional JavaScript number (`undefined`, `0` and `NaN`
are falsy; only non-negative integers occur here). -/
def truthyNum (o : Option Nat) : Bool := o.getD 0 != 0

/-- Node `path.join` on the segment shapes this repository produces (no
separator characters inside segments — the show name is sanitized first —
so joining is plain `/`-intercalation). -/
def joinPath (parts : List String) : String := String.intercalate "/" parts

/-- The sanitizer `show.replace(/[\\/:*?"<>|]/g, "-").trim()` of
`buildOutputPath` (a global single-character-class replace is a per-character
map). -/
def sanitizeShow (showName : String) : String :=
  jsTrim (String.mk (showName.data.map fun c =>
    if c = '\\' || c = '/' || c = ':' || c = '*' || c = '?' || c = '"' ||
       c = '<' || c = '>' || c = '|' then '-' else c))

/-- `buildOutputPath` of src/utils/download.ts: Jellyfin-friendly output
paths.  The `if (season && episode)` test is JavaScript truthiness
(`truthyNum`). -/
def buildOutputPath (baseDir showName : String) (season episode : Option Nat)
    (ext : String) : String :=
  let safeShow := sanitizeShow showName
  if truthyNum season && truthyNum episode then
    let seasonDir := joinPath [baseDir, safeShow,
      "Season " ++ padStart2 (toString (season.getD 0))]
    let filename := safeShow ++ " - S" ++ padStart2 (toString (season.getD 0)) ++
      "E" ++ padStart2 (toString (episode.getD 0)) ++ "." ++ ext
    joinPath [seasonDir, filename]
  else
    joinPath [baseDir, safeShow, safeShow ++ "." ++ ext]

/-! ### Download orchestration (src/utils/download.ts, src/commands/download.ts)

The effectful pieces are modeled by oracles: `alreadyExists` is the result
of the `fileExists` check (a non-empty regular file at the output path),
and `attemptOk i` is whether the `i`-th spawned yt-dlp invocation exits
with code 0.  The observable behavior — success flag, number of external
invocations, and the backoff sleeps performed — is returned explicitly. -/

/-- Observable outcome of `downloadWithRetries` for one episode. -/
structure DlResult where
  ok : Bool
  /-- How many times the external downloader was invoked. -/
  invocations : Nat
  /-- The backoff sleeps performed, in milliseconds, in order. -/
  delays : List Nat
deriving DecidableEq

/-- The `for (let i = 0; i < attempts; i += 1)` retry loop of
`downloadWithRetries`: attempt `i`; on success return immediately, on
failure sleep `5000 * 2 ^ i` ms and continue; after the last attempt give
up. -/
def retryFrom (attemptOk : Nat → Bool) (i : Nat) : Nat → DlResult
  | 0 => ⟨false, 0, []⟩
  | remaining + 1 =>
    if attemptOk i then ⟨true, 1, []⟩
    else
      let rest := retryFrom attemptOk (i + 1) remaining
      ⟨rest.ok, rest.invocations + 1, (5000 * 2 ^ i) :: rest.delays⟩

/-- `downloadWithRetries` of src/utils/download.ts: skip when the target
file already exists as a non-empty regular file, otherwise run the retry
loop (default `attempts = 3`). -/
def downloadWithRetries (alreadyExists : Bool) (attemptOk : Nat → Bool)
    (attempts : Nat) : DlResult :=
  if alreadyExists then ⟨true, 0, []⟩
  else retryFrom attemptOk 0 attempts

/-- One entry of the `failures` array accumulated by `cmdDownload`. -/
structure BatchFailure where
  name : String
  url : String
  error : String
deriving DecidableEq

/-- The episode loop of `cmdDownload` (src/commands/download.ts): download
each filtered episode in order; a failed episode contributes a failure
record with reason `"download failed after retries"` and the loop
continues.  `fsHas ep` is the file-existence check for the episode's
computed output path, `attemptOk ep i` the outcome of its `i`-th yt-dlp
invocation. -/
def processBatch (fsHas : Episode → Bool) (attemptOk : Episode → Nat → Bool)
    (attempts : Nat) : List Episode → List BatchFailure
  | [] => []
  | ep :: rest =>
    let r := downloadWithRetries (fsHas ep) (attemptOk ep) attempts
    (if r.ok then [] else [⟨ep.name, ep.url, "download failed after retries"⟩]) ++
      processBatch fsHas attemptOk attempts rest

/-- The `--season` / `--episode` constraints of `cmdDownload`. -/
structure FilterOpts where
  season : Option Nat
  episodes : Option (List Nat)

/-- `filterEpisodes` of src/commands/download.ts.  `if (opts.season)` is a
truthiness test; the season filter compares with `===` (an episode with
`season` undefined never matches); the episode filter requires a defined
episode number that is a member of the requested set. -/
def filterEpisodes (episodes : List Episode) (opts : FilterOpts) : List Episode :=
  let f1 :=
    if truthyNum opts.season then
      episodes.filter (fun ep => ep.season == opts.season)
    else episodes
  match opts.episodes with
  | some requested =>
    if requested.length > 0 then
      f1.filter (fun ep =>
        match ep.episode with
        | some e => requested.contains e
        | none => false)
    else f1
  | none => f1

/-- The filtering/fallback/truncation sequence of `cmdDownload` (lines
55–58): filter, fall back to the full list when the filter result is
empty, then apply `--max` by `slice(0, max)`. -/
def selectEpisodes (episodes : List Episode) (opts : FilterOpts)
    (maxDownloads : Option Nat) : List Episode :=
  let filtered := filterEpisodes episodes opts
  let filtered := if filtered.length = 0 then episodes else filtered
  match maxDownloads with
  | some m => filtered.take m
  | none => filtered

end Yop

namespace Yop.FrenchStream

/-! ### The HTML-scrape provider (src/providers/frenchstream.ts)

`search` POSTs the query and parses the returned HTML fragment;
`getDetails` fetches the detail page (the identifier is a path such as
`/s-tv/15123579-loups-garous-saison-2-2024.html`, or an absolute URL) and
parses title metadata and the per-language hidden episode-data blocks out
of that same page.  The network is modeled by handing the fetched body to
the parsing functions. -/

/-- `BASE_URL` of src/providers/frenchstream.ts. -/
def BASE_URL : String := "https://fs02.lol"

/-- The class `['"]`. -/
def quoteC : RE := .cls (fun c => c = '\'' || c = '"')

/-- `itemRegex` of `parseSearchResults` (flags `gi`):
`<div[^>]*class=['"]search-item['"][^>]*onclick="location\.href='([^']+)'"[^>]*>[\s\S]*?<div[^>]*class=['"]search-title['"][^>]*>([^<]+)<\/div>`. -/
def itemRE : RE :=
  rseq [rlitCI "<div", .star notGt false,
        rlitCI "class=", quoteC, rlitCI "search-item", quoteC, .star notGt false,
        rlitCI "onclick=\"location.href='",
        .group 1 (rplus (.cls (fun c => c != '\''))),
        rlitCI "'\"", .star notGt false, rlitCI ">",
        .star anyC true,
        rlitCI "<div", .star notGt false,
        rlitCI "class=", quoteC, rlitCI "search-title", quoteC, .star notGt false,
        rlitCI ">",
        .group 2 (rplus (.cls (fun c => c != '<'))),
        rlitCI "</div>"]

/-- The year extractor `/\((\d\d\d\d)\)/` (written `\d` four times; the
source has a bounded repetition). -/
def yearRE : RE := rseq [rlit "(", .group 1 (rseq [dC, dC, dC, dC]), rlit ")"]

/-- The year stripper `/\s*\(\d\d\d\d\)\s*$/`. -/
def yearStripRE : RE :=
  rseq [.star wsC false, rlit "(", dC, dC, dC, dC, rlit ")", .star wsC false, .endStr]

/-- `parseSearchResults` of src/providers/frenchstream.ts: scan the search
HTML for result cards, extract the navigation path and raw title, strip a
trailing parenthesized year, and classify series by a `saison` marker in
the raw title (lowercased) or a `-saison-` marker in the path. -/
def parseSearchResults (html : String) : List Title :=
  (jsMatchAll itemRE html).filterMap fun gs =>
    match getG gs 1, getG gs 2 with
    | some path, some rawTitle =>
      if path = "" || rawTitle = "" then none
      else
        let year := ((jsMatch yearRE rawTitle).bind (fun g => getG g 1)).map parseDigits
        let name := jsTrim (jsReplaceEmpty yearStripRE rawTitle)
        let ttype :=
          if jsIncludes (lowerStr rawTitle) "saison" || jsIncludes path "-saison-"
          then MediaType.series else MediaType.movie
        some ⟨.str path, name, year, ttype, none⟩
    | _, _ => none

/-- `FrenchStreamProvider.search`: parse the POSTed search response and
truncate with `.slice(0, limit)` (default 20). -/
def search (responseHtml : String) (limit : Nat) : List Title :=
  (parseSearchResults responseHtml).take limit

/-- The heading extractor `/<h1[^>]*>([^<]+)<\/h1>/i`. -/
def h1RE : RE :=
  rseq [rlitCI "<h1", .star notGt false, rlitCI ">",
        .group 1 (rplus (.cls (fun c => c != '<'))), rlitCI "</h1>"]

/-- The page-title fallback extractor `/<title>[^<]*?([^<|]+)/i`. -/
def titleRE : RE :=
  rseq [rlitCI "<title>", .star (.cls (fun c => c != '<')) true,
        .group 1 (rplus (.cls (fun c => c != '<' && c != '|')))]

/-- The decorative-phrase stripper `/sÃ©rie\s*/i` (the mojibake literal is
exactly as in the source). -/
def serieStripRE : RE := rseq [rlitCI "sÃ©rie", .star wsC false]

/-- The class matched by `.` (any character except a line terminator). -/
def dotC : RE := .cls (fun c => !(c = '\n' || c = '\r' || c = ' ' || c = ' '))

/-- The decorative-phrase stripper `/\s*en streaming complet.*$/i`. -/
def streamingStripRE : RE :=
  rseq [.star wsC false, rlitCI "en streaming complet", .star dotC false, .endStr]

/-- The path season extractor `/saison-(\d+)/i`. -/
def saisonPathRE : RE := rseq [rlitCI "saison-", .group 1 (rplus dC)]

/-- The name season extractor `/saison\s*(\d+)/i`. -/
def saisonNameRE : RE :=
  rseq [rlitCI "saison", .star wsC false, .group 1 (rplus dC)]

/-- The display-name cleanup `/\s*-?\s*saison\s*\d+/i`. -/
def saisonStripRE : RE :=
  rseq [.star wsC false, ropt (rlit "-"), .star wsC false,
        rlitCI "saison", .star wsC false, rplus dC]

/-- The name computation of `parseMediaPage`: first `<h1>` else `<title>`
content, trimmed and with known decorative phrases stripped; `"Unknown"`
when neither matches. -/
def extractName (html : String) : String :=
  match ((jsMatch h1RE html).orElse (fun _ => jsMatch titleRE html)).bind
      (fun g => getG g 1) with
  | some t => jsTrim (jsReplaceEmpty streamingStripRE (jsReplaceEmpty serieStripRE (jsTrim t)))
  | none => "Unknown"

/-- The season-number computation of `parseMediaPage`: `saison-<digits>`
in the path, else `saison <digits>` in the extracted name, else 1. -/
def seasonNumberOf (html path : String) : Nat :=
  match (jsMatch saisonPathRE path).bind (fun g => getG g 1) with
  | some d => parseDigits d
  | none =>
    match (jsMatch saisonNameRE (extractName html)).bind (fun g => getG g 1) with
    | some d => parseDigits d
    | none => 1

/-- The episode-block regex of `parseEpisodeBlock` (flag `i`), built per
language: `id="episodes-<lang>-data"[^>]*>([\s\S]*?)</div>\s*(?:<div id=|$)`. -/
def blockRE (language : String) : RE :=
  rseq [rlitCI ("id=\"episodes-" ++ language ++ "-data\""), .star notGt false,
        rlitCI ">", .group 1 (.star anyC true),
        rlitCI "</div>", .star wsC false,
        .alt (rlitCI "<div id=") .endStr]

/-- `episodeRegex` of `parseEpisodeBlock` (flags `gi`):
`<div\s+data-ep="(\d+)"\s+([^>]*)>`. -/
def episodeDivRE : RE :=
  rseq [rlitCI "<div", rplus wsC, rlitCI "data-ep=\"", .group 1 (rplus dC),
        rlitCI "\"", rplus wsC, .group 2 (.star notGt false), rlitCI ">"]

/-- The uqload attribute extractor `/data-uqload="([^"]+)"/` (no flags:
case-sensitive). -/
def uqloadAttrRE : RE :=
  rseq [rlit "data-uqload=\"", .group 1 (rplus (.cls (fun c => c != '"'))), rlit "\""]

/-- The uqload URL a `data-ep` div carries, if any (`attrs.match(...)` and
`match?.[1]`). -/
def uqloadAttr (attrs : String) : Option String :=
  (jsMatch uqloadAttrRE attrs).bind (fun g => getG g 1)

/-- The anchored shape test `/^[a-zA-Z0-9]+\.html$/`. -/
def idHtmlRE : RE :=
  rseq [rplus (.cls (fun c => c.isAlpha || c.isDigit)), rlit ".html", .endStr]

/-- The anchored shape test `/^[a-zA-Z0-9]+$/`. -/
def idOnlyRE : RE := rseq [rplus (.cls (fun c => c.isAlpha || c.isDigit)), .endStr]

/-- `normalizeUqloadUrl` of src/providers/frenchstream.ts: accept a bare
identifier, an `embed-….html` fragment, or a full URL; normalize to an
absolute `https://uqload.bz/…` URL; finally validate with `new URL` that
the hostname contains `uqload` and the pathname contains `embed`, else
reject. -/
def normalizeUqloadUrl (url : String) : Option String :=
  if url = "" then none
  else
    let normalized := jsTrim url
    let step : Option String :=
      if jsIncludes normalized "://" then some normalized
      else if jsStartsWith normalized "embed-" then
        some ("https://uqload.bz/" ++ normalized)
      else if testAnchored idHtmlRE normalized then
        some ("https://uqload.bz/embed-" ++ normalized)
      else if testAnchored idOnlyRE normalized then
        some ("https://uqload.bz/embed-" ++ normalized ++ ".html")
      else none
    match step with
    | none => none
    | some n =>
      match parseUrl n with
      | none => none
      | some u =>
        if jsIncludes u.hostname "uqload" && jsIncludes u.pathname "embed"
        then some n else none

/-- The `(epNum, attrs)` pairs produced by the global `episodeRegex` scan
over a block's content (`match[1]` and `match[2] ?? ""`). -/
def extractEpDivs (content : String) : List (String × String) :=
  (jsMatchAll episodeDivRE content).map fun gs =>
    ((getG gs 1).getD "", (getG gs 2).getD "")

/-- The body of the `while` loop of `parseEpisodeBlock` for one episode
div: skip episode `"0"` placeholders, require a non-empty `data-uqload`
value that normalizes, and build the `Episode`. -/
def mkEpisodeFromDiv (language : String) (seasonNumber : Nat)
    (div : String × String) : Option Episode :=
  let epNum := div.1
  let attrs := div.2
  if epNum = "" || epNum = "0" then none
  else
    match uqloadAttr attrs with
    | none => none
    | some raw =>
      if raw.length = 0 then none
      else
        match normalizeUqloadUrl raw with
        | none => none
        | some url =>
          some ⟨.str (language ++ "-s" ++ toString seasonNumber ++ "e" ++ epNum),
                "S" ++ padStart2 (toString seasonNumber) ++ " E" ++ padStart2 epNum,
                some seasonNumber, some (parseDigits epNum), url, some language⟩

/-- `parseEpisodeBlock` of src/providers/frenchstream.ts: locate the
`#episodes-<lang>-data` container in the page HTML and build an `Episode`
per matching `data-ep` div (the source interleaves the scan and the
construction in one loop; here the scan is `extractEpDivs` and the loop
body `mkEpisodeFromDiv`). -/
def parseEpisodeBlock (html language : String) (seasonNumber : Nat) : List Episode :=
  match jsMatch (blockRE language) html with
  | none => []
  | some gs =>
    (extractEpDivs ((getG gs 1).getD "")).filterMap
      (mkEpisodeFromDiv language seasonNumber)

/-- The map key `` `S<season ?? 0>E<episode ?? 0>` `` of `parseEpisodes`. -/
def epKey (ep : Episode) : String :=
  "S" ++ toString (ep.season.getD 0) ++ "E" ++ toString (ep.episode.getD 0)

/-- JavaScript `Map.prototype.set` on an insertion-ordered association
list: overwrite in place when the key exists, append otherwise. -/
def mapSet (m : List (String × Episode)) (k : String) (v : Episode) :
    List (String × Episode) :=
  if m.any (fun p => p.1 == k) then
    m.map (fun p => if p.1 == k then (k, v) else p)
  else m ++ [(k, v)]

/-- The `for (const ep of …) episodeMap.set(key, ep)` loops of
`parseEpisodes`. -/
def insertAll (m : List (String × Episode)) (eps : List Episode) :
    List (String × Episode) :=
  eps.foldl (fun acc ep => mapSet acc (epKey ep) ep) m

/-- The sort comparator `(a.season ?? 0) - (b.season ?? 0) ||
(a.episode ?? 0) - (b.episode ?? 0)` of `parseEpisodes` (the `||` falls
through to the episode difference exactly when the season difference is
0). -/
def epCmp (a b : Episode) : Int :=
  if ((a.season.getD 0 : Int) - (b.season.getD 0 : Int)) ≠ 0 then
    (a.season.getD 0 : Int) - (b.season.getD 0 : Int)
  else (a.episode.getD 0 : Int) - (b.episode.getD 0 : Int)

/-- Non-positivity of the comparator, the order `Array.prototype.sort`
establishes. -/
def epLe (a b : Episode) : Bool := epCmp a b ≤ 0

/-- Insert into a list sorted by `epLe`. -/
def insertSorted (x : Episode) : List Episode → List Episode
  | [] => [x]
  | y :: ys => if epLe x y then x :: y :: ys else y :: insertSorted x ys

/-- `episodes.sort(comparator)`: an order-consistent sorted permutation.
The comparator is antisymmetric and the lists this is applied to have
pairwise distinct `(season, episode)` keys (they are the values of a map
keyed by them), so every ECMAScript-compliant sort produces exactly this
list. -/
def sortEpisodes (l : List Episode) : List Episode := l.foldr insertSorted []

/-- The merge-and-sort tail of `parseEpisodes`: VOSTFR entries enter the
map first, VF entries overwrite them per key, then the values are sorted. -/
def mergeEpisodes (vfEpisodes vostfrEpisodes : List Episode) : List Episode :=
  let m1 := insertAll [] vostfrEpisodes
  let m2 := insertAll m1 vfEpisodes
  sortEpisodes (m2.map Prod.snd)

/-- `parseEpisodes` of src/providers/frenchstream.ts. -/
def parseEpisodes (html : String) (seasonNumber : Nat) : List Episode :=
  mergeEpisodes (parseEpisodeBlock html "vf" seasonNumber)
    (parseEpisodeBlock html "vostfr" seasonNumber)

/-- `parseMediaPage` of src/providers/frenchstream.ts. -/
def parseMediaPage (html path : String) : TitleDetails :=
  let name0 := extractName html
  let isSeries := jsIncludes path "-saison-" || jsIncludes (lowerStr name0) "saison"
  let ttype := if isSeries then MediaType.series else MediaType.movie
  let episodes := parseEpisodes html (seasonNumberOf html path)
  let name := jsTrim (jsReplaceEmpty saisonStripRE name0)
  ⟨.str path, name, ttype, episodes,
   if isSeries then some 1 else none, some episodes.length⟩

/-- The URL `getDetails` fetches: the identifier taken as an absolute URL,
or as a path appended to the base origin. -/
def resolveUrl (titleId : String) : String :=
  if jsStartsWith titleId "http" then titleId else BASE_URL ++ titleId

/-- `FrenchStreamProvider.getDetails`: fetch the detail page (the one and
only request this operation makes — `fetched` is the network oracle) and
parse it. -/
def getDetails (fetched : String → String) (titleId : String) : TitleDetails :=
  parseMediaPage (fetched (resolveUrl titleId)) titleId

end Yop.FrenchStream

namespace Yop.Yopflix

/-! ### The REST-API provider (src/providers/yopflix.ts)

The provider talks to a JSON catalog API; the decoded JSON response bodies
are the inputs of the model (`getJson` either throws on a non-2xx status —
outside these pure functions — or delivers such a value). -/

/-- `interface YopflixSearchResultTitle` of src/types.ts.  `is_series` and
`year` are optional/nullable; `type` and `model_type` are not consulted by
the mapping. -/
structure YfSearchResult where
  id : Nat
  name : String
  year : Option Nat
  is_series : Option Bool
deriving DecidableEq

/-- `interface YopflixSearchResponse` of src/types.ts; `results` is
modeled optional because the source guards with `json.results ?? []`. -/
structure YfSearchResponse where
  results : Option (List YfSearchResult)
  status : String
deriving DecidableEq

/-- `interface YopflixTitleVideo` of src/types.ts.  `url` is `Option`
because the source re-checks `typeof v.url === "string"` at runtime. -/
structure YfVideo where
  id : Nat
  name : String
  url : Option String
  language : Option String
deriving DecidableEq

/-- The `title` object of `interface YopflixTitleDetails`. -/
structure YfTitle where
  id : Nat
  name : String
  is_series : Bool
  season_count : Option Nat
  episode_count : Option Nat
  videos : Option (List YfVideo)
deriving DecidableEq

/-- `interface YopflixTitleDetails` of src/types.ts: playable-video
records may appear at the top level and nested under `title`. -/
structure YfDetails where
  title : YfTitle
  status : String
  videos : Option (List YfVideo)
deriving DecidableEq

/-- The result-record mapping of `YopflixProvider.search`:
`is_series` truthiness picks the type, `year ?? undefined` passes
through. -/
def toTitle (r : YfSearchResult) : Title :=
  ⟨.num r.id, r.name, r.year,
   if r.is_series.getD false then MediaType.series else MediaType.movie, none⟩

/-- `YopflixProvider.search` (src/providers/yopflix.ts, lines 11–21): a
non-`"success"` status is a hard error; otherwise every upstream result
record is mapped to a `Title`.  The `limit` argument is interpolated into
the request URL only — the response mapping never consults it. -/
def search (resp : YfSearchResponse) (limit : Nat) : Except String (List Title) :=
  if resp.status ≠ "success" then Except.error "Search failed"
  else Except.ok ((resp.results.getD []).map toTitle)

/-- The `[...direct, ...nested]` union of `extractEpisodes`. -/
def allVideos (details : YfDetails) : List YfVideo :=
  details.videos.getD [] ++ details.title.videos.getD []

/-- The acceptance test of `extractEpisodes`:
`typeof v.url === "string" && isUqloadEmbed(v.url)`. -/
def videoAccepted (v : YfVideo) : Bool :=
  match v.url with
  | some u => isUqloadEmbed u
  | none => false

/-- `YopflixProvider.extractEpisodes` (src/providers/yopflix.ts, lines
44–63): union the two video lists, keep only records whose URL is a string
matching the uqload embed pattern, and map each to an `Episode` with
season/episode parsed from the free-text name. -/
def extractEpisodes (details : YfDetails) : List Episode :=
  ((allVideos details).filter videoAccepted).map fun v =>
    let se := parseSeasonEpisode v.name
    ⟨.num v.id, v.name, se.1, se.2, v.url.getD "", v.language⟩

/-- `YopflixProvider.getDetails`: map the decoded detail document;
`episodeCount` falls back to the extracted episode-list length. -/
def getDetails (details : YfDetails) : TitleDetails :=
  let episodes := extractEpisodes details
  ⟨.num details.title.id, details.title.name,
   if details.title.is_series then MediaType.series else MediaType.movie,
   episodes, details.title.season_count,
   some (details.title.episode_count.getD episodes.length)⟩

end Yop.Yopflix

namespace Yop

/-! ### Auxiliary definitions for the statements -/

/-- The `(season ?? 0, episode ?? 0)` pair identifying an episode in the
merge map and in the sort order. -/
def pairOf (ep : Episode) : Nat × Nat := (ep.season.getD 0, ep.episode.getD 0)

/-- Rendering of a pair as the merge-map key (so that
`FrenchStream.epKey = keyOfPair ∘ pairOf`). -/
def keyOfPair (p : Nat × Nat) : String :=
  "S" ++ toString p.1 ++ "E" ++ toString p.2

/-- The `--max` truncation step of `cmdDownload`
(`if (typeof maxDownloads === "number") filtered = filtered.slice(0, maxDownloads)`). -/
def applyMax (l : List Episode) (maxDownloads : Option Nat) : List Episode :=
  match maxDownloads with
  | some m => l.take m
  | none => l

/-- The fallback step of `cmdDownload`
(`if (filtered.length === 0) filtered = episodes`). -/
def fallbackList (episodes : List Episode) (opts : FilterOpts) : List Episode :=
  if (filterEpisodes episodes opts).length = 0 then episodes
  else filterEpisodes episodes opts

/-! ### Concrete inputs used by counterexamples and witnesses -/

/-- A detail page with an `<h1>` and one VF episode div carrying a uqload
id. -/
def exHtml1 : String :=
  "<h1>Loups</h1><div id=\"episodes-vf-data\"><div data-ep=\"1\" data-uqload=\"abc12\"></div></div>"

/-- A detail-page path containing no digits at all (so no numeric catalog
identifier is embedded in it). -/
def exPath1 : String := "/s-tv/loups-garous.html"

/-- The episode `parseEpisodes` extracts from `exHtml1`. -/
def exEp1 : Episode :=
  ⟨.str "vf-s1e1", "S01 E01", some 1, some 1,
   "https://uqload.bz/embed-abc12.html", some "vf"⟩

/-- A detail page whose single VF episode div carries a vidzy player URL
but no uqload attribute. -/
def exHtml2 : String :=
  "<div id=\"episodes-vf-data\"><div data-ep=\"1\" data-vidzy=\"https://vidzy.net/embed-abc.html\"></div></div>"

/-- A search-response record marked as a series. -/
def exRes3a : Yopflix.YfSearchResult := ⟨11, "Psych", some 2006, some true⟩

/-- A search-response record with optional fields absent. -/
def exRes3b : Yopflix.YfSearchResult := ⟨12, "Psych 2", none, none⟩

/-- A success search envelope with two result records. -/
def exResp3 : Yopflix.YfSearchResponse := ⟨some [exRes3a, exRes3b], "success"⟩

/-- A dubbed-track (VF) episode for season 1 episode 1. -/
def exVf4 : Episode :=
  ⟨.str "vf-s1e1", "S01 E01", some 1, some 1,
   "https://uqload.bz/embed-vf1.html", some "vf"⟩

/-- A subtitled-track (VOSTFR) episode for the same (season, episode). -/
def exVo4 : Episode :=
  ⟨.str "vostfr-s1e1", "S01 E01", some 1, some 1,
   "https://uqload.bz/embed-vo1.html", some "vostfr"⟩

/-- A season-1 episode used to exercise a non-matching season filter. -/
def exEp5 : Episode :=
  ⟨.str "vf-s1e1", "S01 E01", some 1, some 1,
   "https://uqload.bz/embed-a5.html", some "vf"⟩

/-- An episode whose downloads will all fail in the C6 witness. -/
def exEp6 : Episode :=
  ⟨.str "vf-s1e1", "S01 E01", some 1, some 1,
   "https://uqload.bz/embed-a6.html", some "vf"⟩

/-- A follow-up batch episode for the C6 witness. -/
def exEp6b : Episode :=
  ⟨.str "vf-s1e2", "S01 E02", some 1, some 2,
   "https://uqload.bz/embed-b6.html", some "vf"⟩

/-- An episode whose output file already exists in the C7 witness. -/
def exEp7 : Episode :=
  ⟨.str "vf-s1e1", "S01 E01", some 1, some 1,
   "https://uqload.bz/embed-a7.html", some "vf"⟩

/-- A copy of the `exHtml1` page, reserved for the C8 witness. -/
def exHtml8 : String :=
  "<h1>Loups</h1><div id=\"episodes-vf-data\"><div data-ep=\"1\" data-uqload=\"abc12\"></div></div>"

/-- The episode `parseEpisodes` extracts from `exHtml8`. -/
def exEp8 : Episode :=
  ⟨.str "vf-s1e1", "S01 E01", some 1, some 1,
   "https://uqload.bz/embed-abc12.html", some "vf"⟩

end Yop

/-! ## Lemmas -/

namespace Yop.FrenchStream

/-- The comparator order is total. -/
theorem epLe_total (a b : Episode) : epLe a b = true ∨ epLe b a = true := by
  simp only [epLe, decide_eq_true_eq, epCmp]
  split_ifs <;> omega

/-- The comparator order is transitive. -/
theorem epLe_trans {a b c : Episode} (h1 : epLe a b = true)
    (h2 : epLe b c = true) : epLe a c = true := by
  simp only [epLe, decide_eq_true_eq, epCmp] at h1 h2 ⊢
  split_ifs at h1 h2 ⊢ <;> omega

/-- Membership in an insertion. -/
theorem mem_insertSorted {x z : Episode} : ∀ {l : List Episode},
    z ∈ insertSorted x l ↔ z = x ∨ z ∈ l
  | [] => by simp [insertSorted]
  | y :: ys => by
    rw [insertSorted]
    by_cases h : epLe x y = true
    · simp only [if_pos h, List.mem_cons]
    · simp only [if_neg h, List.mem_cons, @mem_insertSorted x z ys]
      tauto

/-- Insertion preserves sortedness. -/
theorem pairwise_insertSorted {x : Episode} : ∀ {l : List Episode},
    l.Pairwise (fun a b => epLe a b = true) →
    (insertSorted x l).Pairwise (fun a b => epLe a b = true)
  | [], _ => by simp [insertSorted]
  | y :: ys, h => by
    rw [List.pairwise_cons] at h
    rw [insertSorted]
    by_cases hxy : epLe x y = true
    · rw [if_pos hxy, List.pairwise_cons]
      refine ⟨?_, List.pairwise_cons.2 h⟩
      intro z hz
      rcases List.mem_cons.1 hz with rfl | hz
      · exact hxy
      · exact epLe_trans hxy (h.1 z hz)
    · rw [if_neg hxy, List.pairwise_cons]
      refine ⟨?_, pairwise_insertSorted h.2⟩
      intro z hz
      rcases mem_insertSorted.1 hz with rfl | hz
      · rcases epLe_total z y with ht | ht
        · exact absurd ht hxy
        · exact ht
      · exact h.1 z hz

/-- The sort output is sorted. -/
theorem pairwise_sortEpisodes : ∀ l : List Episode,
    (sortEpisodes l).Pairwise (fun a b => epLe a b = true)
  | [] => by simp [sortEpisodes]
  | x :: xs => pairwise_insertSorted (pairwise_sortEpisodes xs)

/-- Insertion is a permutation of consing. -/
theorem perm_insertSorted (x : Episode) : ∀ l : List Episode,
    List.Perm (insertSorted x l) (x :: l)
  | [] => List.Perm.refl _
  | y :: ys => by
    rw [insertSorted]
    by_cases h : epLe x y = true
    · rw [if_pos h]
    · rw [if_neg h]
      exact ((perm_insertSorted x ys).cons y).trans (List.Perm.swap x y ys)

/-- The sort is a permutation. -/
theorem perm_sortEpisodes : ∀ l : List Episode, List.Perm (sortEpisodes l) l
  | [] => List.Perm.refl _
  | x :: xs => (perm_insertSorted x (sortEpisodes xs)).trans
      ((perm_sortEpisodes xs).cons x)

/-- Membership is preserved by the sort. -/
theorem mem_sortEpisodes {ep : Episode} {l : List Episode} :
    ep ∈ sortEpisodes l ↔ ep ∈ l :=
  (perm_sortEpisodes l).mem_iff

/-- Case analysis for membership in `mapSet`. -/
theorem mem_mapSet {m : List (String × Episode)} {k : String} {v : Episode}
    {p : String × Episode} (h : p ∈ mapSet m k v) :
    p = (k, v) ∨ (p ∈ m ∧ p.1 ≠ k) := by
  unfold mapSet at h
  by_cases hk : m.any (fun q => q.1 == k)
  · rw [if_pos hk] at h
    rcases List.mem_map.1 h with ⟨q, hq, hqe⟩
    by_cases h2 : q.1 == k
    · rw [if_pos h2] at hqe
      exact Or.inl hqe.symm
    · rw [if_neg h2] at hqe
      subst hqe
      exact Or.inr ⟨hq, by simpa using h2⟩
  · rw [if_neg hk] at h
    rcases List.mem_append.1 h with h | h
    · refine Or.inr ⟨h, fun he => hk ?_⟩
      exact List.any_eq_true.2 ⟨p, h, by simpa using he⟩
    · exact Or.inl (by simpa using h)

/-- Case analysis for membership in `insertAll`. -/
theorem mem_insertAll : ∀ {eps : List Episode} {m : List (String × Episode)}
    {p : String × Episode}, p ∈ insertAll m eps →
    (p.2 ∈ eps ∧ epKey p.2 = p.1) ∨ (p ∈ m ∧ p.1 ∉ eps.map epKey)
  | [], _, p, h => Or.inr ⟨h, by simp⟩
  | e :: es, m, p, h => by
    rcases @mem_insertAll es (mapSet m (epKey e) e) p h with ⟨h1, h2⟩ | ⟨h1, h2⟩
    · exact Or.inl ⟨List.mem_cons_of_mem _ h1, h2⟩
    · rcases mem_mapSet h1 with he | ⟨hm, hne⟩
      · subst he
        exact Or.inl ⟨List.mem_cons_self _ _, rfl⟩
      · refine Or.inr ⟨hm, ?_⟩
        simp only [List.map_cons, List.mem_cons, not_or]
        exact ⟨hne, h2⟩

/-- The merge-map invariant: every stored entry is keyed by its own
episode key. -/
theorem key_inv_insertAll {eps : List Episode} {m : List (String × Episode)}
    (hm : ∀ p ∈ m, epKey p.2 = p.1) :
    ∀ p ∈ insertAll m eps, epKey p.2 = p.1 := by
  intro p hp
  rcases mem_insertAll hp with ⟨_, h⟩ | ⟨h, _⟩
  · exact h
  · exact hm p h

/-- Key list of a `mapSet`. -/
theorem keys_mapSet (m : List (String × Episode)) (k : String) (v : Episode) :
    (mapSet m k v).map Prod.fst =
      if m.any (fun q => q.1 == k) then m.map Prod.fst
      else m.map Prod.fst ++ [k] := by
  unfold mapSet
  by_cases hk : m.any (fun q => q.1 == k)
  · rw [if_pos hk, if_pos hk, List.map_map]
    refine List.map_congr_left (fun p _ => ?_)
    by_cases h2 : p.1 == k
    · simp only [Function.comp, if_pos h2]
      exact (eq_of_beq h2).symm
    · simp only [Function.comp, if_neg h2]
  · rw [if_neg hk, if_neg hk]
    simp

/-- Key membership after a `mapSet`. -/
theorem mem_keys_mapSet {m : List (String × Episode)} {k k0 : String}
    {v : Episode} :
    k ∈ (mapSet m k0 v).map Prod.fst ↔ k ∈ m.map Prod.fst ∨ k = k0 := by
  rw [keys_mapSet]
  by_cases hk : m.any (fun q => q.1 == k0)
  · rw [if_pos hk]
    constructor
    · exact Or.inl
    · rintro (h | rfl)
      · exact h
      · rcases List.any_eq_true.1 hk with ⟨q, hq, hqe⟩
        exact List.mem_map.2 ⟨q, hq, by simpa using hqe⟩
  · rw [if_neg hk]
    simp

/-- Key membership after `insertAll`. -/
theorem mem_keys_insertAll : ∀ {eps : List Episode}
    {m : List (String × Episode)} {k : String},
    k ∈ (insertAll m eps).map Prod.fst ↔
      k ∈ m.map Prod.fst ∨ k ∈ eps.map epKey
  | [], m, k => by simp [insertAll]
  | e :: es, m, k => by
    show k ∈ (insertAll (mapSet m (epKey e) e) es).map Prod.fst ↔ _
    rw [@mem_keys_insertAll es (mapSet m (epKey e) e) k, mem_keys_mapSet]
    simp only [List.map_cons, List.mem_cons]
    tauto

/-- `mapSet` preserves distinctness of keys. -/
theorem nodup_keys_mapSet {m : List (String × Episode)} {k : String}
    {v : Episode} (h : (m.map Prod.fst).Nodup) :
    ((mapSet m k v).map Prod.fst).Nodup := by
  rw [keys_mapSet]
  by_cases hk : m.any (fun q => q.1 == k)
  · rwa [if_pos hk]
  · rw [if_neg hk]
    rw [List.nodup_append]
    refine ⟨h, List.nodup_singleton k, ?_⟩
    intro a ha hb
    rcases List.mem_singleton.1 hb with rfl
    rcases List.mem_map.1 ha with ⟨q, hq, hqe⟩
    exact hk (List.any_eq_true.2 ⟨q, hq, by simpa using hqe⟩)

/-- `insertAll` preserves distinctness of keys. -/
theorem nodup_keys_insertAll : ∀ {eps : List Episode}
    {m : List (String × Episode)}, (m.map Prod.fst).Nodup →
    ((insertAll m eps).map Prod.fst).Nodup
  | [], _, h => h
  | _ :: es, _, h => @nodup_keys_insertAll es _ (nodup_keys_mapSet h)

end Yop.FrenchStream

namespace Yop

/-- A string the URL constructor accepts is non-empty. -/
theorem parseUrl_ne_empty {s : String} {u : UrlParts}
    (h : parseUrl s = some u) : s ≠ "" := by
  intro he
  subst he
  have : parseUrl "" = none := rfl
  rw [this] at h
  cases h

/-- A URL accepted by `isUqloadEmbed` is non-empty. -/
theorem isUqloadEmbed_ne_empty {s : String} (h : isUqloadEmbed s = true) :
    s ≠ "" := by
  unfold isUqloadEmbed at h
  split at h
  · cases h
  · exact parseUrl_ne_empty (by assumption)

end Yop

namespace Yop.FrenchStream

/-- Whatever `normalizeUqloadUrl` returns passed its own `new URL`
validation: the hostname contains `uqload` and the pathname contains
`embed`. -/
theorem normalizeUqloadUrl_valid {raw n : String}
    (h : normalizeUqloadUrl raw = some n) :
    ∃ u, parseUrl n = some u ∧
      (jsIncludes u.hostname "uqload" && jsIncludes u.pathname "embed") = true := by
  unfold normalizeUqloadUrl at h
  dsimp only at h
  split at h
  · cases h
  · split at h
    · cases h
    · rename_i n' _
      split at h
      · cases h
      · rename_i u _
        split at h
        · rcases Option.some.inj h with rfl
          exact ⟨u, by assumption, by assumption⟩
        · cases h

/-- An episode built from a `data-ep` div carries exactly the normalized
uqload URL of that div's `data-uqload` attribute. -/
theorem url_of_mkEpisodeFromDiv {language : String} {seasonNumber : Nat}
    {d : String × String} {ep : Episode}
    (h : mkEpisodeFromDiv language seasonNumber d = some ep) :
    ∃ raw, uqloadAttr d.2 = some raw ∧ normalizeUqloadUrl raw = some ep.url := by
  unfold mkEpisodeFromDiv at h
  dsimp only at h
  split at h
  · cases h
  · split at h
    · cases h
    · rename_i raw heq
      split at h
      · cases h
      · split at h
        · cases h
        · rename_i url hn
          rcases Option.some.inj h with rfl
          exact ⟨raw, heq, hn⟩

/-- A div with no `data-uqload` attribute never yields an episode. -/
theorem mkEpisodeFromDiv_no_uqload {language : String} {seasonNumber : Nat}
    {d : String × String} (h : uqloadAttr d.2 = none) :
    mkEpisodeFromDiv language seasonNumber d = none := by
  unfold mkEpisodeFromDiv
  dsimp only
  split
  · rfl
  · rw [h]

/-- The episode constructor reads the attribute string only through
`uqloadAttr`. -/
theorem mkEpisodeFromDiv_congr {language : String} {seasonNumber : Nat}
    {epNum a1 a2 : String} (h : uqloadAttr a1 = uqloadAttr a2) :
    mkEpisodeFromDiv language seasonNumber (epNum, a1) =
      mkEpisodeFromDiv language seasonNumber (epNum, a2) := by
  unfold mkEpisodeFromDiv
  dsimp only
  rw [h]

/-- Every episode of a parsed block carries a normalized uqload URL. -/
theorem url_of_mem_parseEpisodeBlock {html language : String}
    {seasonNumber : Nat} {ep : Episode}
    (h : ep ∈ parseEpisodeBlock html language seasonNumber) :
    ∃ raw, normalizeUqloadUrl raw = some ep.url := by
  unfold parseEpisodeBlock at h
  split at h
  · cases h
  · rcases List.mem_filterMap.1 h with ⟨d, _, hmk⟩
    rcases url_of_mkEpisodeFromDiv hmk with ⟨raw, _, hn⟩
    exact ⟨raw, hn⟩

/-- Merged episodes come from one of the two track lists. -/
theorem mem_mergeEpisodes {ep : Episode} {vf vostfr : List Episode}
    (h : ep ∈ mergeEpisodes vf vostfr) : ep ∈ vf ∨ ep ∈ vostfr := by
  unfold mergeEpisodes at h
  rw [mem_sortEpisodes] at h
  rcases List.mem_map.1 h with ⟨p, hp, rfl⟩
  rcases mem_insertAll hp with ⟨h1, _⟩ | ⟨h1, _⟩
  · exact Or.inl h1
  · rcases mem_insertAll h1 with ⟨h2, _⟩ | ⟨h2, _⟩
    · exact Or.inr h2
    · cases h2

/-- Every episode of `parseEpisodes` carries a normalized uqload URL. -/
theorem url_of_mem_parseEpisodes {html : String} {seasonNumber : Nat}
    {ep : Episode} (h : ep ∈ parseEpisodes html seasonNumber) :
    ∃ raw, normalizeUqloadUrl raw = some ep.url := by
  unfold parseEpisodes at h
  rcases mem_mergeEpisodes h with h | h <;>
    exact url_of_mem_parseEpisodeBlock h

end Yop.FrenchStream

/-! ## Claim theorems -/

namespace Yop

/-- C9: `buildOutputPath` sanitizes the show name by replacing
filesystem-illegal characters with `-` and, when both season and episode
are known (present and non-zero, per the source's truthiness test), nests
the file as `<baseDir>/<show>/Season <NN>/<show> - S<NN>E<NN>.<ext>` with
two-digit zero padding; in particular
`buildOutputPath "/out" "My Show: Part 1" 1 2 "mp4"` equals
`/out/My Show- Part 1/Season 01/My Show- Part 1 - S01E02.mp4`. -/
theorem c9_buildOutputPath_format :
    buildOutputPath "/out" "My Show: Part 1" (some 1) (some 2) "mp4" =
      "/out/My Show- Part 1/Season 01/My Show- Part 1 - S01E02.mp4" ∧
    ∀ (baseDir showName : String) (season episode : Option Nat) (ext : String),
      truthyNum season = true → truthyNum episode = true →
      buildOutputPath baseDir showName season episode ext =
        joinPath [joinPath [baseDir, sanitizeShow showName,
            "Season " ++ padStart2 (toString (season.getD 0))],
          sanitizeShow showName ++ " - S" ++ padStart2 (toString (season.getD 0)) ++
            "E" ++ padStart2 (toString (episode.getD 0)) ++ "." ++ ext] := by
  constructor
  · decide
  · intro baseDir showName season episode ext hs he
    unfold buildOutputPath
    rw [hs, he]
    rfl

/-- Witness for C9 at the spec's concrete input. -/
theorem c9_witness :
    truthyNum (some 1) = true ∧ truthyNum (some 2) = true ∧
    buildOutputPath "/out" "My Show: Part 1" (some 1) (some 2) "mp4" =
      joinPath [joinPath ["/out", sanitizeShow "My Show: Part 1",
          "Season " ++ padStart2 (toString ((some 1 : Option Nat).getD 0))],
        sanitizeShow "My Show: Part 1" ++ " - S" ++
          padStart2 (toString ((some 1 : Option Nat).getD 0)) ++ "E" ++
          padStart2 (toString ((some 2 : Option Nat).getD 0)) ++ "." ++ "mp4"] :=
  ⟨by decide, by decide,
   c9_buildOutputPath_format.2 "/out" "My Show: Part 1" (some 1) (some 2) "mp4"
     (by decide) (by decide)⟩

/-- C10: `buildOutputPath` called with season = 0 or episode = 0 (present
but zero) returns the flat fallback path `<baseDir>/<show>/<show>.<ext>`
rather than the Season-nested path, because the source decides presence by
truthiness (`if (season && episode)`), and 0 is falsy. -/
theorem c10_zero_number_gives_flat_path :
    ∀ (baseDir showName ext : String) (season episode : Option Nat),
      buildOutputPath baseDir showName (some 0) episode ext =
        joinPath [baseDir, sanitizeShow showName,
          sanitizeShow showName ++ "." ++ ext] ∧
      buildOutputPath baseDir showName season (some 0) ext =
        joinPath [baseDir, sanitizeShow showName,
          sanitizeShow showName ++ "." ++ ext] := by
  intro baseDir showName ext season episode
  constructor
  · rfl
  · unfold buildOutputPath
    rw [show truthyNum (some 0) = false from rfl, Bool.and_false]
    rfl

/-- C7: for an episode whose computed output path already names an
existing non-empty regular file (`alreadyExists`/`fsHas` is the result of
that check), the orchestrator performs zero external-downloader
invocations, reports success, and the batch treats the episode as
satisfied (no failure record). -/
theorem c7_existing_file_skips_downloader :
    (∀ (attemptOk : Nat → Bool) (attempts : Nat),
      downloadWithRetries true attemptOk attempts =
        ⟨true, 0, []⟩) ∧
    ∀ (fsHas : Episode → Bool) (attemptOk : Episode → Nat → Bool)
      (attempts : Nat) (ep : Episode) (rest : List Episode),
      fsHas ep = true →
      processBatch fsHas attemptOk attempts (ep :: rest) =
        processBatch fsHas attemptOk attempts rest := by
  refine ⟨fun _ _ => rfl, ?_⟩
  intro fsHas attemptOk attempts ep rest h
  have he : processBatch fsHas attemptOk attempts (ep :: rest) =
      (if (downloadWithRetries (fsHas ep) (attemptOk ep) attempts).ok then []
       else [⟨ep.name, ep.url, "download failed after retries"⟩]) ++
        processBatch fsHas attemptOk attempts rest := rfl
  rw [he, h]
  rfl

/-- Witness for C7 at a concrete episode and oracles. -/
theorem c7_witness :
    downloadWithRetries true (fun _ => false) 3 = ⟨true, 0, []⟩ ∧
    processBatch (fun _ => true) (fun _ _ => false) 3 [exEp7] =
      processBatch (fun _ => true) (fun _ _ => false) 3 [] :=
  ⟨c7_existing_file_skips_downloader.1 (fun _ => false) 3,
   c7_existing_file_skips_downloader.2 (fun _ => true) (fun _ _ => false) 3
     exEp7 [] rfl⟩

/-- C6: when the external downloader fails on all 3 attempts for an
episode the retry loop sleeps 5000, 10000, 20000 milliseconds (doubling
backoff), the orchestrator records the episode as a failure whose reason
text contains "after retries", and the batch continues with the remaining
episodes instead of aborting. -/
theorem c6_exhausted_retries_fail_and_continue :
    ∀ (fsHas : Episode → Bool) (attemptOk : Episode → Nat → Bool)
      (ep : Episode) (rest : List Episode),
      fsHas ep = false → (∀ i, i < 3 → attemptOk ep i = false) →
      downloadWithRetries (fsHas ep) (attemptOk ep) 3 =
        ⟨false, 3, [5000, 10000, 20000]⟩ ∧
      processBatch fsHas attemptOk 3 (ep :: rest) =
        ⟨ep.name, ep.url, "download failed after retries"⟩ ::
          processBatch fsHas attemptOk 3 rest ∧
      ∃ pre post,
        "download failed after retries" = pre ++ "after retries" ++ post := by
  intro fsHas attemptOk ep rest hfs hfail
  have h0 := hfail 0 (by omega)
  have h1 := hfail 1 (by omega)
  have h2 := hfail 2 (by omega)
  have hdl : downloadWithRetries (fsHas ep) (attemptOk ep) 3 =
      ⟨false, 3, [5000, 10000, 20000]⟩ := by
    unfold downloadWithRetries
    rw [hfs]
    show retryFrom (attemptOk ep) 0 3 = _
    simp [retryFrom, h0, h1, h2]
  refine ⟨hdl, ?_, "download failed ", "", rfl⟩
  have he : processBatch fsHas attemptOk 3 (ep :: rest) =
      (if (downloadWithRetries (fsHas ep) (attemptOk ep) 3).ok then []
       else [⟨ep.name, ep.url, "download failed after retries"⟩]) ++
        processBatch fsHas attemptOk 3 rest := rfl
  rw [he, hdl]
  rfl

/-- Witness for C6 at concrete oracles failing every attempt. -/
theorem c6_witness :
    downloadWithRetries false (fun _ => false) 3 =
      ⟨false, 3, [5000, 10000, 20000]⟩ ∧
    processBatch (fun _ => false) (fun _ _ => false) 3 [exEp6, exEp6b] =
      ⟨exEp6.name, exEp6.url, "download failed after retries"⟩ ::
        processBatch (fun _ => false) (fun _ _ => false) 3 [exEp6b] := by
  have h := c6_exhausted_retries_fail_and_continue (fun _ => false)
    (fun _ _ => false) exEp6 [exEp6b] rfl (fun _ _ => rfl)
  exact ⟨h.1, h.2.1⟩

/-- C5: when season/episode-number filtering matches zero episodes the
orchestrator falls back to the full unfiltered list (never an empty one
when the input is non-empty), and the `--max` truncation is applied from
the front only after that filtering and fallback. -/
theorem c5_filter_fallback_then_truncate :
    ∀ (episodes : List Episode) (opts : FilterOpts)
      (maxDownloads : Option Nat),
      episodes ≠ [] →
      selectEpisodes episodes opts maxDownloads =
        applyMax (fallbackList episodes opts) maxDownloads ∧
      (filterEpisodes episodes opts = [] →
        fallbackList episodes opts = episodes) ∧
      fallbackList episodes opts ≠ [] := by
  intro episodes opts maxD hne
  refine ⟨rfl, ?_, ?_⟩
  · intro h
    unfold fallbackList
    rw [h]
    rfl
  · unfold fallbackList
    by_cases h : (filterEpisodes episodes opts).length = 0
    · rw [if_pos h]
      exact hne
    · rw [if_neg h]
      intro he
      rw [he] at h
      exact h rfl

/-- Witness for C5: a season filter that matches nothing falls back to the
whole list. -/
theorem c5_witness : fallbackList [exEp5] ⟨some 5, none⟩ = [exEp5] :=
  ((c5_filter_fallback_then_truncate [exEp5] ⟨some 5, none⟩ none
    (by decide)).2.1) (by decide)

/-- C3 counterexample: the REST-API provider does not truncate.  With
`limit = 1` and an upstream success envelope containing two result
records, `search` returns both titles, so the result is not capped at
`limit`. -/
theorem c3_counterexample :
    Yopflix.search exResp3 1 =
      Except.ok [Yopflix.toTitle exRes3a, Yopflix.toTitle exRes3b] ∧
    ¬ ([Yopflix.toTitle exRes3a, Yopflix.toTitle exRes3b].length ≤ 1) := by
  constructor
  · rfl
  · decide

/-- C3 (amended): the HTML-scrape provider truncates its parsed result
list to `limit` via `slice(0, limit)`, so it returns at most `limit`
titles; the REST-API provider only passes `limit` to the upstream request
URL and maps every record of a success response without client-side
truncation. -/
theorem c3_search_limit_behavior :
    (∀ (responseHtml : String) (limit : Nat),
      FrenchStream.search responseHtml limit =
        (FrenchStream.parseSearchResults responseHtml).take limit ∧
      (FrenchStream.search responseHtml limit).length ≤ limit) ∧
    ∀ (resp : Yopflix.YfSearchResponse) (limit : Nat),
      resp.status = "success" →
      Yopflix.search resp limit =
        Except.ok ((resp.results.getD []).map Yopflix.toTitle) := by
  constructor
  · intro html limit
    exact ⟨rfl, List.length_take_le _ _⟩
  · intro resp limit h
    unfold Yopflix.search
    rw [if_neg (not_not_intro h)]

/-- Witness for C3's REST-API conjunct at a concrete success response. -/
theorem c3_witness :
    Yopflix.search exResp3 5 =
      Except.ok ((exResp3.results.getD []).map Yopflix.toTitle) :=
  c3_search_limit_behavior.2 exResp3 5 rfl

end Yop

namespace Yop

/-- C2 counterexample: the HTML-scrape provider consults no fallback
backends.  `exHtml2`'s single VF episode div carries a vidzy player URL
(and no uqload attribute), yet the episode is dropped — refuting that an
episode is dropped "only when no URL exists in any of the backends". -/
theorem c2_counterexample :
    jsIncludes exHtml2 "data-vidzy=\"https://vidzy.net/embed-abc.html\"" = true ∧
    FrenchStream.parseEpisodeBlock exHtml2 "vf" 1 = [] := by
  exact ⟨by decide, by decide⟩

/-- C2 (amended): for every language track and episode div, the provider
selects only the uqload backend: the episode's URL is the normalized
`data-uqload` value, a div with no `data-uqload` attribute is dropped
regardless of the other backends' attributes, and the construction reads
the attribute string only through the uqload extractor. -/
theorem c2_uqload_only_no_fallbacks :
    (∀ (language : String) (seasonNumber : Nat) (epNum a1 a2 : String),
      FrenchStream.uqloadAttr a1 = FrenchStream.uqloadAttr a2 →
      FrenchStream.mkEpisodeFromDiv language seasonNumber (epNum, a1) =
        FrenchStream.mkEpisodeFromDiv language seasonNumber (epNum, a2)) ∧
    (∀ (language : String) (seasonNumber : Nat) (d : String × String),
      FrenchStream.uqloadAttr d.2 = none →
      FrenchStream.mkEpisodeFromDiv language seasonNumber d = none) ∧
    (∀ (language : String) (seasonNumber : Nat) (d : String × String)
      (ep : Episode),
      FrenchStream.mkEpisodeFromDiv language seasonNumber d = some ep →
      ∃ raw, FrenchStream.uqloadAttr d.2 = some raw ∧
        FrenchStream.normalizeUqloadUrl raw = some ep.url) ∧
    ∀ (html language : String) (seasonNumber : Nat) (ep : Episode),
      ep ∈ FrenchStream.parseEpisodeBlock html language seasonNumber →
      ∃ raw, FrenchStream.normalizeUqloadUrl raw = some ep.url :=
  ⟨fun _ _ _ _ _ h => FrenchStream.mkEpisodeFromDiv_congr h,
   fun _ _ _ h => FrenchStream.mkEpisodeFromDiv_no_uqload h,
   fun _ _ _ _ h => FrenchStream.url_of_mkEpisodeFromDiv h,
   fun _ _ _ _ h => FrenchStream.url_of_mem_parseEpisodeBlock h⟩

/-- Witness for C2: a div carrying only a netu attribute yields no
episode. -/
theorem c2_witness :
    FrenchStream.mkEpisodeFromDiv "vf" 1 ("1", "data-netu=\"x\"") = none :=
  c2_uqload_only_no_fallbacks.2.1 "vf" 1 ("1", "data-netu=\"x\"") (by decide)

/-- C1 counterexample: `exPath1` contains no digits at all (so no numeric
identifier is embedded anywhere in the path), yet `getDetails` on a page
with a VF episode-data block returns a non-empty episode list — refuting
that the episode list is empty when no numeric identifier is present. -/
theorem c1_counterexample :
    (exPath1.data.all fun c => !c.isDigit) = true ∧
    (FrenchStream.parseMediaPage exHtml1 exPath1).episodes = [exEp1] := by
  exact ⟨by decide, by decide⟩

/-- C1 (amended): `getDetails` issues a single request (for the detail
page itself) and parses episodes out of per-language hidden data blocks
embedded in that same HTML: the episode list depends on the identifier
path only through the season-number extraction (no numeric identifier is
consulted and no auxiliary episode-data request is made), and when
neither language block matches the page the episode list is empty. -/
theorem c1_episodes_from_embedded_blocks :
    ∀ (html path : String),
      (FrenchStream.parseMediaPage html path).episodes =
        FrenchStream.parseEpisodes html (FrenchStream.seasonNumberOf html path) ∧
      (∀ path2 : String,
        FrenchStream.seasonNumberOf html path =
          FrenchStream.seasonNumberOf html path2 →
        (FrenchStream.parseMediaPage html path).episodes =
          (FrenchStream.parseMediaPage html path2).episodes) ∧
      (jsMatch (FrenchStream.blockRE "vf") html = none →
       jsMatch (FrenchStream.blockRE "vostfr") html = none →
       (FrenchStream.parseMediaPage html path).episodes = []) := by
  intro html path
  refine ⟨rfl, ?_, ?_⟩
  · intro path2 h
    show FrenchStream.parseEpisodes html (FrenchStream.seasonNumberOf html path) =
      FrenchStream.parseEpisodes html (FrenchStream.seasonNumberOf html path2)
    rw [h]
  · intro h1 h2
    show FrenchStream.parseEpisodes html (FrenchStream.seasonNumberOf html path) = []
    unfold FrenchStream.parseEpisodes FrenchStream.parseEpisodeBlock
    rw [h1, h2]
    rfl

/-- Witness for C1 on a page with no episode-data blocks. -/
theorem c1_witness :
    (FrenchStream.parseMediaPage "<h1>T</h1>" "/a.html").episodes = [] :=
  (c1_episodes_from_embedded_blocks "<h1>T</h1>" "/a.html").2.2
    (by decide) (by decide)

/-- C8: every episode either provider puts into a `TitleDetails` has a
non-empty playable URL: the REST-API provider keeps only video records
whose URL matches the uqload embed pattern (others are dropped, never kept
with an empty URL), and every HTML-scrape episode URL is a normalized
uqload URL that passed the hostname/pathname validation. -/
theorem c8_every_episode_has_playable_url :
    (∀ (d : Yopflix.YfDetails) (ep : Episode),
      ep ∈ (Yopflix.getDetails d).episodes →
      isUqloadEmbed ep.url = true ∧ ep.url ≠ "") ∧
    ∀ (fetched : String → String) (titleId : String) (ep : Episode),
      ep ∈ (FrenchStream.getDetails fetched titleId).episodes →
      (∃ u, parseUrl ep.url = some u ∧
        (jsIncludes u.hostname "uqload" && jsIncludes u.pathname "embed") = true) ∧
      ep.url ≠ "" := by
  constructor
  · intro d ep hmem
    have hmem' : ep ∈ Yopflix.extractEpisodes d := hmem
    unfold Yopflix.extractEpisodes at hmem'
    rcases List.mem_map.1 hmem' with ⟨v, hv, rfl⟩
    have hacc := (List.mem_filter.1 hv).2
    unfold Yopflix.videoAccepted at hacc
    split at hacc
    · rename_i u heq
      refine ⟨?_, ?_⟩
      · show isUqloadEmbed (v.url.getD "") = true
        rw [heq]
        exact hacc
      · show v.url.getD "" ≠ ""
        rw [heq]
        exact isUqloadEmbed_ne_empty hacc
    · cases hacc
  · intro fetched titleId ep hmem
    have hmem' : ep ∈ FrenchStream.parseEpisodes
        (fetched (FrenchStream.resolveUrl titleId))
        (FrenchStream.seasonNumberOf (fetched (FrenchStream.resolveUrl titleId))
          titleId) := hmem
    rcases FrenchStream.url_of_mem_parseEpisodes hmem' with ⟨raw, hn⟩
    rcases FrenchStream.normalizeUqloadUrl_valid hn with ⟨u, hu, hc⟩
    exact ⟨⟨u, hu, hc⟩, parseUrl_ne_empty hu⟩

/-- Witness for C8 on a concrete scraped page. -/
theorem c8_witness :
    (∃ u, parseUrl exEp8.url = some u ∧
      (jsIncludes u.hostname "uqload" && jsIncludes u.pathname "embed") = true) ∧
    exEp8.url ≠ "" :=
  c8_every_episode_has_playable_url.2 (fun _ => exHtml8) "/s-tv/loups.html"
    exEp8 (by decide)

/-- C4: for every pair of dubbed-track (VF) and subtitled-track (VOSTFR)
episode lists, the merged list contains at most one episode per
`(season ?? 0, episode ?? 0)` pair, covers exactly the keys of both
inputs, prefers the dubbed-track entry whenever one exists for the pair,
and is sorted ascending by (season, episode) with missing numbers treated
as 0. -/
theorem c4_merge_unique_vf_priority_sorted :
    ∀ (vf vostfr : List Episode),
      ((FrenchStream.mergeEpisodes vf vostfr).map pairOf).Nodup ∧
      (∀ k, k ∈ (FrenchStream.mergeEpisodes vf vostfr).map FrenchStream.epKey ↔
        (k ∈ vf.map FrenchStream.epKey ∨ k ∈ vostfr.map FrenchStream.epKey)) ∧
      (∀ ep, ep ∈ FrenchStream.mergeEpisodes vf vostfr →
        pairOf ep ∈ vf.map pairOf → ep ∈ vf) ∧
      (FrenchStream.mergeEpisodes vf vostfr).Pairwise
        (fun a b => FrenchStream.epLe a b = true) := by
  intro vf vostfr
  have hinv : ∀ p ∈ FrenchStream.insertAll (FrenchStream.insertAll [] vostfr) vf,
      FrenchStream.epKey p.2 = p.1 :=
    FrenchStream.key_inv_insertAll
      (FrenchStream.key_inv_insertAll (fun p hp => absurd hp (List.not_mem_nil p)))
  have hnodup : ((FrenchStream.insertAll (FrenchStream.insertAll [] vostfr) vf).map
      Prod.fst).Nodup :=
    FrenchStream.nodup_keys_insertAll (FrenchStream.nodup_keys_insertAll (by simp))
  have hperm : List.Perm (FrenchStream.mergeEpisodes vf vostfr)
      ((FrenchStream.insertAll (FrenchStream.insertAll [] vostfr) vf).map Prod.snd) :=
    FrenchStream.perm_sortEpisodes _
  have hkeys : ((FrenchStream.insertAll (FrenchStream.insertAll [] vostfr) vf).map
        Prod.snd).map FrenchStream.epKey =
      (FrenchStream.insertAll (FrenchStream.insertAll [] vostfr) vf).map Prod.fst := by
    rw [List.map_map]
    exact List.map_congr_left hinv
  have h1 : ((FrenchStream.mergeEpisodes vf vostfr).map FrenchStream.epKey).Nodup := by
    rw [(hperm.map FrenchStream.epKey).nodup_iff, hkeys]
    exact hnodup
  refine ⟨?_, ?_, ?_, ?_⟩
  · have h2 : (((FrenchStream.mergeEpisodes vf vostfr).map pairOf).map keyOfPair).Nodup := by
      rw [List.map_map]
      exact h1
    exact h2.of_map keyOfPair
  · intro k
    rw [(hperm.map FrenchStream.epKey).mem_iff, hkeys,
      FrenchStream.mem_keys_insertAll, FrenchStream.mem_keys_insertAll]
    simp only [List.map_nil, List.not_mem_nil, false_or]
    tauto
  · intro ep hep hpair
    rcases List.mem_map.1 (hperm.mem_iff.1 hep) with ⟨p, hp, rfl⟩
    rcases FrenchStream.mem_insertAll hp with ⟨h1, _⟩ | ⟨h1, h2⟩
    · exact h1
    · exfalso
      apply h2
      rcases List.mem_map.1 hpair with ⟨v, hv, hpv⟩
      have hkv : FrenchStream.epKey v = FrenchStream.epKey p.2 := by
        show keyOfPair (pairOf v) = keyOfPair (pairOf p.2)
        rw [hpv]
      rw [← hinv p hp, ← hkv]
      exact List.mem_map_of_mem _ hv
  · exact FrenchStream.pairwise_sortEpisodes _

/-- Witness for C4: merging one VF and one VOSTFR episode for the same
pair keeps only the VF entry. -/
theorem c4_witness :
    FrenchStream.mergeEpisodes [exVf4] [exVo4] = [exVf4] ∧ exVf4 ∈ [exVf4] :=
  ⟨by decide,
   (c4_merge_unique_vf_priority_sorted [exVf4] [exVo4]).2.2.1 exVf4
     (by decide) (by decide)⟩

end Yop
